import Mathlib

/-!
Shallow embedding of the WeFlow encrypted-store access and media decryption
engine.  Byte buffers are modelled as `List Nat` with every element below 256;
JavaScript 32-bit signed arithmetic is made explicit where the source relies
on it.  Filesystem, database and crypto primitives consumed by the code are
modelled as explicit oracle parameters.
-/

deriving instance DecidableEq for Except

namespace WeFlow

/-- Error outcomes of the decryption routines; each constructor corresponds to
one `throw` site in the source. -/
inductive DatError
  | emptyPad       -- 解密结果为空，填充非法
  | badPadLength   -- PKCS7 填充长度非法
  | badPadContent  -- PKCS7 填充内容非法
  | tooSmall       -- 文件太小，无法解析
  | aesOverflow    -- AES 数据长度超过文件实际长度
  | aesBlock       -- crypto decipher.final with autoPadding(false): non-multiple-of-16 input
  | badXorSize     -- XOR 数据长度不合法
  | rawLessXor     -- 原始数据长度小于XOR长度
  | configKeyMissing -- 请到设置配置图片解密密钥
  | keyTooShort    -- AES密钥至少需要16个字符
  deriving DecidableEq, Repr

/-- Model of `ImageDecryptService.strictRemovePadding`: strict PKCS7 unpadding.
Rejects an empty buffer, a final byte of 0 or above 16 or above the buffer
length, and any trailing byte differing from the final byte; otherwise strips
exactly `paddingLength` trailing bytes. -/
def strictRemovePadding (data : List Nat) : Except DatError (List Nat) :=
  match data.getLast? with
  | none => .error .emptyPad
  | some paddingLength =>
    if paddingLength = 0 ∨ paddingLength > 16 ∨ paddingLength > data.length then
      .error .badPadLength
    else if (data.drop (data.length - paddingLength)).all (fun b => b = paddingLength) then
      .ok (data.take (data.length - paddingLength))
    else
      .error .badPadContent

/-- Model of `ImageDecryptService.getDatVersion`, byte-level part: compare the first six
bytes against the V1/V2 magic signatures (`compareBytes` is list equality);
inputs shorter than six bytes are version 0. -/
def getDatVersion (bytes : List Nat) : Nat :=
  if bytes.length < 6 then 0
  else
    let signature := bytes.take 6
    if signature = [0x07, 0x08, 0x56, 0x31, 0x08, 0x07] then 1
    else if signature = [0x07, 0x08, 0x56, 0x32, 0x08, 0x07] then 2
    else 0

/-- Model of `decryptDatV3`: XOR every byte with the one-byte key; the write into the
output `Buffer` truncates to 8 bits. -/
def decryptDatV3 (data : List Nat) (xorKey : Nat) : List Nat :=
  data.map (fun b => (b ^^^ xorKey) % 256)

/-- The JavaScript `%` operator (remainder carrying the dividend's sign),
for a positive modulus. -/
def jsRem (a b : Int) : Int :=
  if 0 ≤ a then a % b else -((-a) % b)

/-- Model of `Buffer.subarray(start, end)` (TypedArray semantics): negative indices are
relative to the end of the buffer, and the range is clamped. -/
def jsSubarray (l : List Nat) (s e : Int) : List Nat :=
  let len : Int := l.length
  let s' := if s < 0 then max (len + s) 0 else min s len
  let e' := if e < 0 then max (len + e) 0 else min e len
  (l.drop s'.toNat).take (e' - s').toNat

/-- Model of `Buffer.subarray(start)` — one-argument form, `end` defaults to the
buffer length. -/
def jsSubarrayFrom (l : List Nat) (s : Int) : List Nat :=
  jsSubarray l s l.length

/-- Model of `bytesToInt32`: little-endian signed 32-bit read (the `|` chain in the
source yields an int32); requires exactly 4 bytes. -/
def bytesToInt32 (bytes : List Nat) : Except DatError Int :=
  match bytes with
  | [b0, b1, b2, b3] =>
    let u : Nat := b0 + b1 * 256 + b2 * 65536 + b3 * 16777216
    .ok (if u < 2147483648 then (u : Int) else (u : Int) - 4294967296)
  | _ => .error .tooSmall

/-- Model of `asciiKey16`: reject a key string of fewer than 16 characters, else take
the first 16 bytes of its `ascii` encoding (char code truncated to 8 bits). -/
def asciiKey16 (s : String) : Except DatError (List Nat) :=
  if s.length < 16 then .error .keyTooShort
  else .ok ((s.toList.map (fun c => c.toNat % 256)).take 16)

/-- The fixed built-in V1 AES key of `ImageDecryptService`. -/
def defaultV1AesKey : String := "cfcd208495d565ef"

/-- The 15-byte header of a V1/V2 container (`bytes.subarray(0, 0x0f)`). -/
def v4Header (bytes : List Nat) : List Nat := jsSubarray bytes 0 15

/-- The body of a V1/V2 container (`bytes.subarray(0x0f)`). -/
def v4Body (bytes : List Nat) : List Nat := jsSubarrayFrom bytes 15

/-- The signed `aesSize` field at header offset 6. -/
def v4AesSize (bytes : List Nat) : Except DatError Int :=
  bytesToInt32 (jsSubarray (v4Header bytes) 6 10)

/-- The signed `xorSize` field at header offset 10. -/
def v4XorSize (bytes : List Nat) : Except DatError Int :=
  bytesToInt32 (jsSubarray (v4Header bytes) 10 14)

/-- The value `alignedAesSize` as computed in `decryptDatV4`:
`aesSize + (16 - (((aesSize % 16) + 16) % 16))` with JavaScript `%`. -/
def alignAesSize (aesSize : Int) : Int :=
  aesSize + (16 - ((jsRem aesSize 16) + 16) % 16)

/-- The AES region `data.subarray(0, alignedAesSize)` of a V1/V2 container
body, taken only after the `alignedAesSize > data.length` guard passed. -/
def v4AesData (bytes : List Nat) (aesSize : Int) : List Nat :=
  jsSubarray (v4Body bytes) 0 (alignAesSize aesSize)

/-- Model of `decryptDatV4`: split the body into an AES-128-ECB region (decrypted with
`aesDec`, modelling the external cipher primitive, then strictly unpadded), a
raw region and a XOR region, and concatenate the three decrypted parts.
`aesDec key ct` stands for `createDecipheriv('aes-128-ecb', key).update(ct) ++
final()` with auto-padding disabled, whose own preconditions (16-byte key,
block-aligned input) are modelled as explicit checks. -/
def decryptDatV4 (aesDec : List Nat → List Nat → List Nat)
    (bytes : List Nat) (xorKey : Nat) (aesKey : List Nat) :
    Except DatError (List Nat) :=
  if bytes.length < 15 then .error .tooSmall
  else
    match v4AesSize bytes, v4XorSize bytes with
    | .error e, _ => .error e
    | .ok _, .error e => .error e
    | .ok aesSize, .ok xorSize =>
      let data := v4Body bytes
      if alignAesSize aesSize > (data.length : Int) then .error .aesOverflow
      else
        let aesData := v4AesData bytes aesSize
        let unpaddedE : Except DatError (List Nat) :=
          if aesData.length > 0 then
            if aesKey.length ≠ 16 then .error .keyTooShort
            else if aesData.length % 16 ≠ 0 then .error .aesBlock
            else strictRemovePadding (aesDec aesKey aesData)
          else .ok []
        match unpaddedE with
        | .error e => .error e
        | .ok unpadded =>
          let remaining := jsSubarrayFrom data (alignAesSize aesSize)
          if xorSize < 0 ∨ xorSize > (remaining.length : Int) then .error .badXorSize
          else if 0 < xorSize then
            let rawLength := (remaining.length : Int) - xorSize
            if rawLength < 0 then .error .rawLessXor
            else
              let rawData := jsSubarray remaining 0 rawLength
              let xorData := jsSubarrayFrom remaining rawLength
              .ok (unpadded ++ rawData ++ xorData.map (fun b => (b ^^^ xorKey) % 256))
          else .ok (unpadded ++ remaining)

/-- Model of `decryptDatAuto`: dispatch on the detected container version.  V0 is the
plain XOR pass; V1 uses the fixed built-in AES key; V2 requires the
operator-configured key to be present and exactly 16 bytes, else it is a hard
configuration error. -/
def decryptDatAuto (aesDec : List Nat → List Nat → List Nat)
    (bytes : List Nat) (xorKey : Nat) (aesKey : Option (List Nat)) :
    Except DatError (List Nat) :=
  let version := getDatVersion bytes
  if version = 0 then .ok (decryptDatV3 bytes xorKey)
  else if version = 1 then
    match asciiKey16 defaultV1AesKey with
    | .error e => .error e
    | .ok key => decryptDatV4 aesDec bytes xorKey key
  else
    match aesKey with
    | none => .error .configKeyMissing
    | some k =>
      if k.length ≠ 16 then .error .configKeyMissing
      else decryptDatV4 aesDec bytes xorKey k

/-- The ordering-relevant subset of the `Message` record produced by
`ChatService.mapRowsToMessages`; absent numeric fields are modelled as 0
(both `undefined` and `0` are falsy in the `||` chains of the source). -/
structure Message where
  localId : Nat
  createTime : Nat
  sortSeq : Nat
  deriving DecidableEq, Repr, Inhabited

/-- The ordering key `m.sortSeq || m.createTime || m.localId || 0`. -/
def messageOrderKey (m : Message) : Nat :=
  if m.sortSeq ≠ 0 then m.sortSeq
  else if m.createTime ≠ 0 then m.createTime
  else m.localId

/-- Model of `ChatService.normalizeMessageOrder`: compare the ordering key of the first
and last record and reverse the batch when the first is strictly greater. -/
def normalizeMessageOrder (messages : List Message) : List Message :=
  if messages.length < 2 then messages
  else
    let first := messages.headD default
    let last := messages.getLastD default
    if messageOrderKey first > messageOrderKey last then messages.reverse
    else messages

/-- One batch returned by the underlying `wcdbService.fetchMessageBatch`
primitive (success path), with rows already mapped to message records. -/
structure MsgBatch where
  rows : List Message
  hasMore : Bool

/-- Per-session cursor state kept in `ChatService.messageCursors`.  The opaque
native cursor is modelled as the stream of batches it will yield (`stream`)
together with how many batches have been fetched from it so far (`pos`). -/
structure CursorState where
  stream : Nat → MsgBatch
  pos : Nat
  fetched : Nat
  batchSize : Nat
  startTime : Int
  endTime : Int
  ascending : Bool

/-- The cursor-rebuild condition of `ChatService.getMessages`: no state, or
`offset == 0`, or any of the open parameters differs. -/
def needNewCursor (state? : Option CursorState) (offset batchSize : Nat)
    (startTime endTime : Int) (ascending : Bool) : Bool :=
  match state? with
  | none => true
  | some s =>
    offset == 0 || s.batchSize != batchSize || s.startTime != startTime ||
      s.endTime != endTime || s.ascending != ascending

/-- Outcome of the skip-to-offset loop: `done` when the skipped count reached
the offset, `ended` when a batch came back empty or without `hasMore` (the
call then returns an empty page). -/
inductive SkipOut where
  | done (pos fetched : Nat)
  | ended (pos fetched : Nat)
  deriving Repr

/-- The `while (skipped < offset)` loop of `getMessages`: fetch batches from
the fresh cursor and discard their rows until at least `offset` rows have been
discarded. -/
def skipLoop (stream : Nat → MsgBatch) (offset pos skipped : Nat) : SkipOut :=
  if h : skipped < offset then
    if h0 : (stream pos).rows.length = 0 then .ended (pos + 1) skipped
    else if (stream pos).hasMore then
      skipLoop stream offset (pos + 1) (skipped + (stream pos).rows.length)
    else .ended (pos + 1) (skipped + (stream pos).rows.length)
  else .done pos skipped
  termination_by offset - skipped
  decreasing_by
    simp_wf
    omega

/-- Result of one `getMessages` call: the page, the stored cursor state, and
two ghost observations (`openedNew`: whether a fresh underlying cursor was
opened; `discarded`: rows discarded by the skip loop). -/
structure GetMessagesResult where
  success : Bool
  messages : List Message
  hasMore : Bool
  state : Option CursorState
  openedNew : Bool
  discarded : Nat

/-- The tail of `getMessages`: fetch one batch from the current cursor,
normalize its order and advance `fetched`. -/
def fetchMessagePage (stream : Nat → MsgBatch) (pos fetched batchSize : Nat)
    (startTime endTime : Int) (ascending : Bool) (openedNew : Bool)
    (discarded : Nat) : GetMessagesResult :=
  let batch := stream pos
  { success := true
    messages := normalizeMessageOrder batch.rows
    hasMore := batch.hasMore
    state := some ⟨stream, pos + 1, fetched + batch.rows.length, batchSize,
      startTime, endTime, ascending⟩
    openedNew := openedNew
    discarded := discarded }

/-- The constant `ChatService.messageBatchDefault`. -/
def messageBatchDefault : Nat := 50

/-- Model of `ChatService.getMessages` (success path of the underlying primitives),
for one session.  `openCursor batchSize ascending begin end` is the oracle for
`wcdbService.openMessageCursor`, yielding the batch stream of the fresh
cursor; `state?` is the entry of `messageCursors` for the session. -/
def getMessagesModel (openCursor : Nat → Bool → Int → Int → Nat → MsgBatch)
    (state? : Option CursorState) (offset limit : Nat)
    (startTime endTime : Int) (ascending : Bool) : GetMessagesResult :=
  let batchSize := max 1 (if limit = 0 then messageBatchDefault else limit)
  if needNewCursor state? offset batchSize startTime endTime ascending then
    let beginTimestamp := if startTime > 10000000000 then startTime / 1000 else startTime
    let endTimestamp := if endTime > 10000000000 then endTime / 1000 else endTime
    let stream := openCursor batchSize ascending beginTimestamp endTimestamp
    if 0 < offset then
      match skipLoop stream offset 0 0 with
      | .ended pos fetched =>
        { success := true, messages := [], hasMore := false
          state := some ⟨stream, pos, fetched, batchSize, startTime, endTime, ascending⟩
          openedNew := true, discarded := fetched }
      | .done pos fetched =>
        fetchMessagePage stream pos fetched batchSize startTime endTime ascending true fetched
    else
      fetchMessagePage stream 0 0 batchSize startTime endTime ascending true 0
  else
    match state? with
    | some s =>
      -- offset ≠ s.fetched is only logged; the existing cursor is kept
      fetchMessagePage s.stream s.pos s.fetched s.batchSize s.startTime s.endTime
        s.ascending false 0
    | none =>
      { success := false, messages := [], hasMore := false, state := none
        openedNew := false, discarded := 0 }

/-- Sum of the row counts of batches `pos, pos+1, …, pos+k-1` of a stream. -/
def batchLenSum (stream : Nat → MsgBatch) (pos k : Nat) : Nat :=
  match k with
  | 0 => 0
  | k + 1 => batchLenSum stream pos k + (stream (pos + k)).rows.length

/-- Model of `looksLikeMd5`: the regex for 16 to 32 hexadecimal characters. -/
def looksLikeMd5 (value : String) : Bool :=
  16 ≤ value.length && value.length ≤ 32 &&
    value.toList.all (fun c =>
      c.isDigit || ('a' ≤ c && c ≤ 'f') || ('A' ≤ c && c ≤ 'F'))

/-- One step of the `while (/[._][a-z]$/.test(base))` loop of
`normalizeDatBase`, on the reversed character list: strip a trailing
separator+letter pair while one is present. -/
def stripXVariantsRev : List Char → List Char
  | c :: d :: rest =>
    if ('a' ≤ c && c ≤ 'z') && (d = '.' || d = '_') then stripXVariantsRev rest
    else c :: d :: rest
  | l => l

/-- Model of `normalizeDatBase`: lowercase, strip one `.dat`/`.jpg` extension, then
strip trailing `[._][a-z]` variant suffixes. -/
def normalizeDatBase (name : String) : String :=
  let base := name.toLower
  let chars :=
    if base.endsWith ".dat" || base.endsWith ".jpg" then
      base.toList.take (base.length - 4)
    else base.toList
  String.mk (stripXVariantsRev chars.reverse).reverse

/-- Oracles consumed by `resolveDatPath`: the hardlink-database resolution
(`resolveHardlinkPath`, keyed by the queried hash), the thumbnail-suffix
predicate, the resolved-path cache, `existsSync`, and the filesystem
search `searchDatFile` (keyed by name and allow-thumbnail flag). -/
structure ResolveEnv where
  hardlink : String → Option String
  isThumb : String → Bool
  resolvedCache : String → Option String
  fileExists : String → Bool
  search : String → Bool → Option String

/-- Result of `resolveDatPath` plus a ghost flag recording whether any
`searchDatFile` filesystem search was invoked. -/
structure ResolveOutcome where
  path : Option String
  searched : Bool
  deriving DecidableEq, Repr

/-- Model of `ImageDecryptService.resolveDatPath`: hardlink lookup by md5 (with a
dat-name fallback), hardlink lookup by dat name when no md5 is given, the
fail-closed return when only a high-definition variant is acceptable, and the
cache/search tail used only when thumbnails are allowed. -/
def resolveDatPath (env : ResolveEnv) (imageMd5 imageDatName : Option String)
    (allowThumbnail skipResolvedCache : Bool) : ResolveOutcome :=
  let hit : Option ResolveOutcome :=
    match imageMd5 with
    | none => none
    | some md5 =>
      match env.hardlink md5 with
      | some p =>
        if allowThumbnail || !env.isThumb p then some ⟨some p, false⟩
        else some ⟨none, false⟩
      | none =>
        match imageDatName with
        | some dn =>
          if looksLikeMd5 dn && dn ≠ md5 then
            match env.hardlink dn with
            | some p =>
              if allowThumbnail || !env.isThumb p then some ⟨some p, false⟩
              else some ⟨none, false⟩
            | none => none
          else none
        | none => none
  match hit with
  | some r => r
  | none =>
    let hit2 : Option ResolveOutcome :=
      match imageMd5, imageDatName with
      | none, some dn =>
        if looksLikeMd5 dn then
          match env.hardlink dn with
          | some p =>
            if allowThumbnail || !env.isThumb p then some ⟨some p, false⟩
            else some ⟨none, false⟩
          | none => none
        else none
      | _, _ => none
    match hit2 with
    | some r => r
    | none =>
      if !allowThumbnail then ⟨none, false⟩
      else
        match imageDatName with
        | none => ⟨none, false⟩
        | some dn =>
          let cachedHit : Option String :=
            if !skipResolvedCache then
              match env.resolvedCache dn with
              | some c =>
                if env.fileExists c && (allowThumbnail || !env.isThumb c) then some c
                else none
              | none => none
            else none
          match cachedHit with
          | some c => ⟨some c, false⟩
          | none =>
            match env.search dn allowThumbnail with
            | some p => ⟨some p, true⟩
            | none =>
              let normalized := normalizeDatBase dn
              if normalized ≠ dn.toLower then
                match env.search normalized allowThumbnail with
                | some p => ⟨some p, true⟩
                | none => ⟨none, true⟩
              else ⟨none, true⟩

/-- Which of the optional audio-schema elements were discovered for a shard
(`mediaDbSchemaCache` entry); a shard without a data column is skipped before
any strategy runs. -/
structure VoiceSchema where
  hasChatNameId : Bool
  hasTimeColumn : Bool
  hasName2Id : Bool

/-- One media database shard together with the results its queries would
return: `name2IdRows` are the identity row-ids resolved for the candidate
strings, and `q1`/`q2`/`q3` are the `LIMIT 1` payloads of the identity+time,
exact-time and ±5-second-window queries. -/
structure VoiceShard where
  schema : VoiceSchema
  name2IdRows : List Nat
  q1 : Option (List Nat)
  q2 : Option (List Nat)
  q3 : Option (List Nat)

/-- The per-shard strategy cascade of `ChatService.getVoiceDataFromMediaDb`;
`decode` models `decodeVoiceBlob`.  The second component is a ghost trace of
the strategy tiers whose queries were executed, in program order. -/
def voiceLookupShard (decode : List Nat → Option (List Nat))
    (sh : VoiceShard) : Option (List Nat) × List Nat :=
  let t1 := sh.schema.hasChatNameId && sh.schema.hasTimeColumn && sh.schema.hasName2Id
  let tr1 : List Nat := if t1 then [1] else []
  let r1 := if t1 && !sh.name2IdRows.isEmpty then sh.q1.bind decode else none
  match r1 with
  | some d => (some d, tr1)
  | none =>
    let t2 := sh.schema.hasTimeColumn
    let tr2 := tr1 ++ if t2 then [2] else []
    let r2 := if t2 then sh.q2.bind decode else none
    match r2 with
    | some d => (some d, tr2)
    | none =>
      let t3 := sh.schema.hasTimeColumn
      let tr3 := tr2 ++ if t3 then [3] else []
      ((if t3 then sh.q3.bind decode else none), tr3)

/-- The shard loop of `getVoiceDataFromMediaDb`: the first shard yielding a
non-empty, successfully decoded payload wins. -/
def getVoiceDataFromMediaDb (decode : List Nat → Option (List Nat)) :
    List VoiceShard → Option (List Nat)
  | [] => none
  | sh :: rest =>
    match (voiceLookupShard decode sh).1 with
    | some d => some d
    | none => getVoiceDataFromMediaDb decode rest

/-- Atomic events of the in-flight deduplication discipline shared by
`ImageDecryptService.decryptImage` (`this.pending`) and
`ChatService.getVoiceTranscript` (`voiceTranscriptPending`): a request's
synchronous prologue (map lookup, possibly starting work and storing the
task) and a task's settlement (its `finally` removes the entry), each atomic
on the single-threaded event loop. -/
inductive DedupEvent where
  | request (key : String)
  | complete (key : String)

/-- State of the in-flight map plus ghost observations: `starts` counts
underlying work executions, `served` records which task each request was
attached to. -/
structure DedupState where
  pending : String → Option Nat
  nextId : Nat
  starts : Nat
  served : List (String × Nat)

/-- Initial state: empty in-flight map. -/
def dedupInit : DedupState :=
  { pending := fun _ => none, nextId := 0, starts := 0, served := [] }

/-- One atomic step: a request for an in-flight key attaches to the existing
task; otherwise it starts the work once and stores the task; completion
(success or failure) removes the entry. -/
def dedupStep (s : DedupState) : DedupEvent → DedupState
  | .request k =>
    match s.pending k with
    | some t => { s with served := s.served ++ [(k, t)] }
    | none =>
      { pending := fun k' => if k' = k then some s.nextId else s.pending k'
        nextId := s.nextId + 1
        starts := s.starts + 1
        served := s.served ++ [(k, s.nextId)] }
  | .complete k =>
    { s with pending := fun k' => if k' = k then none else s.pending k' }

/-- Run a sequence of atomic events. -/
def dedupRun (s : DedupState) (events : List DedupEvent) : DedupState :=
  events.foldl dedupStep s

/-! ## Theorems -/

/-- C3: PKCS7 padding removal fails exactly when the buffer is empty, its
final byte is 0, exceeds 16, exceeds the buffer length, or some of the last
`paddingLength` bytes differs from `paddingLength`; on success it returns the
input with exactly `paddingLength` trailing bytes removed. -/
theorem strictRemovePadding_spec (data : List Nat) :
    ((∃ out, strictRemovePadding data = .ok out) ↔
      ∃ p, data.getLast? = some p ∧ p ≠ 0 ∧ p ≤ 16 ∧ p ≤ data.length ∧
        ∀ b ∈ data.drop (data.length - p), b = p)
    ∧ (∀ p, data.getLast? = some p →
        ∀ out, strictRemovePadding data = Except.ok out →
          out = data.take (data.length - p)) := by
  unfold strictRemovePadding
  cases hl : data.getLast? with
  | none => simp
  | some p =>
    by_cases h1 : p = 0 ∨ p > 16 ∨ p > data.length
    · simp only [h1, if_true]
      constructor
      · constructor
        · rintro ⟨out, hout⟩
          cases hout
        · rintro ⟨p', hp', hne, hle, hlen, _⟩
          cases hp'
          exact absurd h1 (by omega)
      · intro p' _ out hout
        cases hout
    · by_cases h2 : (data.drop (data.length - p)).all (fun b => b = p)
      · simp only [h1, if_false, h2, if_true]
        constructor
        · constructor
          · intro _
            refine ⟨p, rfl, ?_, ?_, ?_, ?_⟩ <;> first
              | omega
              | (intro b hb
                 have := List.all_eq_true.mp h2 b hb
                 simpa using this)
          · intro _
            exact ⟨_, rfl⟩
        · intro p' hp' out hout
          cases hp'
          cases hout
          rfl
      · simp only [h1, if_false, h2, if_false]
        constructor
        · constructor
          · rintro ⟨out, hout⟩
            cases hout
          · rintro ⟨p', hp', _, _, _, hall⟩
            cases hp'
            exfalso
            apply h2
            rw [List.all_eq_true]
            intro b hb
            simpa using hall b hb
        · intro p' _ out hout
          cases hout

/-- Witness for C3: a buffer ending in the byte 5 repeated 5 times strips
exactly 5 bytes. -/
theorem strictRemovePadding_spec_witness :
    strictRemovePadding [1, 2, 3, 5, 5, 5, 5, 5] = Except.ok [1, 2, 3] := by
  obtain ⟨out, hout⟩ := (strictRemovePadding_spec [1, 2, 3, 5, 5, 5, 5, 5]).1.mpr
    ⟨5, by decide, by decide, by decide, by decide, by decide⟩
  have hval := (strictRemovePadding_spec [1, 2, 3, 5, 5, 5, 5, 5]).2 5 (by decide) out hout
  rw [hval] at hout
  simpa using hout

/-- C4: the version detector returns V1 exactly when the first six bytes are
`07 08 56 31 08 07`, V2 exactly for `07 08 56 32 08 07`, and V0 otherwise
(including inputs shorter than six bytes). -/
theorem getDatVersion_spec (bytes : List Nat) :
    (getDatVersion bytes = 1 ↔ bytes.take 6 = [0x07, 0x08, 0x56, 0x31, 0x08, 0x07])
    ∧ (getDatVersion bytes = 2 ↔ bytes.take 6 = [0x07, 0x08, 0x56, 0x32, 0x08, 0x07])
    ∧ (bytes.take 6 ≠ [0x07, 0x08, 0x56, 0x31, 0x08, 0x07] →
        bytes.take 6 ≠ [0x07, 0x08, 0x56, 0x32, 0x08, 0x07] →
        getDatVersion bytes = 0) := by
  unfold getDatVersion
  by_cases hlen : bytes.length < 6
  · have h6 : (bytes.take 6).length ≠ 6 := by
      rw [List.length_take]
      omega
    have hne1 : bytes.take 6 ≠ [0x07, 0x08, 0x56, 0x31, 0x08, 0x07] := by
      intro h
      exact h6 (by rw [h]; rfl)
    have hne2 : bytes.take 6 ≠ [0x07, 0x08, 0x56, 0x32, 0x08, 0x07] := by
      intro h
      exact h6 (by rw [h]; rfl)
    simp [hlen, hne1, hne2]
  · by_cases h1 : bytes.take 6 = [0x07, 0x08, 0x56, 0x31, 0x08, 0x07]
    · simp [hlen, h1]
    · by_cases h2 : bytes.take 6 = [0x07, 0x08, 0x56, 0x32, 0x08, 0x07]
      · simp [hlen, h1, h2]
      · simp [hlen, h1, h2]

/-- Witness for C4: a short input selects V0. -/
theorem getDatVersion_spec_witness : getDatVersion [1, 2, 3] = 0 :=
  (getDatVersion_spec [1, 2, 3]).2.2 (by decide) (by decide)

/-- C5: the V0 transform (XOR with a one-byte key) applied twice with the
same key is the identity on byte sequences, and it preserves length. -/
theorem decryptDatV3_involution (data : List Nat) (xorKey : Nat)
    (hk : xorKey < 256) (hd : ∀ b ∈ data, b < 256) :
    decryptDatV3 (decryptDatV3 data xorKey) xorKey = data ∧
      (decryptDatV3 data xorKey).length = data.length := by
  constructor
  · unfold decryptDatV3
    rw [List.map_map]
    have : ∀ b ∈ data, ((fun b => (b ^^^ xorKey) % 256) ∘ fun b => (b ^^^ xorKey) % 256) b = id b := by
      intro b hb
      have hb256 : b < 256 := hd b hb
      have hxor : b ^^^ xorKey < 256 := by
        have := Nat.xor_lt_two_pow (n := 8) (by simpa using hb256) (by simpa using hk)
        simpa using this
      simp only [Function.comp_apply, id_eq]
      rw [Nat.mod_eq_of_lt hxor, Nat.xor_cancel_right, Nat.mod_eq_of_lt hb256]
    rw [List.map_congr_left this, List.map_id]
  · unfold decryptDatV3
    exact List.length_map data _

/-- Witness for C5: a concrete round trip. -/
theorem decryptDatV3_involution_witness :
    decryptDatV3 (decryptDatV3 [0x12, 0xff, 0] 0x55) 0x55 = [0x12, 0xff, 0] :=
  (decryptDatV3_involution [0x12, 0xff, 0] 0x55 (by decide) (by decide)).1

/-- C8: a V2 container is a hard configuration error whenever the configured
AES key is absent or not exactly 16 bytes; with a valid 16-byte key V2
decrypts with that key; a V1 container always decrypts with the fixed
built-in default key (the ASCII bytes of `cfcd208495d565ef`), regardless of
the configured key. -/
theorem decryptDatAuto_spec (aesDec : List Nat → List Nat → List Nat)
    (bytes : List Nat) (xorKey : Nat) (aesKey? : Option (List Nat)) :
    (getDatVersion bytes = 2 →
      (∀ k, aesKey? = some k → k.length ≠ 16) →
      decryptDatAuto aesDec bytes xorKey aesKey? = .error .configKeyMissing)
    ∧ (getDatVersion bytes = 2 → ∀ k, aesKey? = some k → k.length = 16 →
        decryptDatAuto aesDec bytes xorKey aesKey? = decryptDatV4 aesDec bytes xorKey k)
    ∧ (getDatVersion bytes = 1 →
        decryptDatAuto aesDec bytes xorKey aesKey? =
          decryptDatV4 aesDec bytes xorKey
            [99, 102, 99, 100, 50, 48, 56, 52, 57, 53, 100, 53, 54, 53, 101, 102]) := by
  refine ⟨?_, ?_, ?_⟩
  · intro hv hk
    cases hak : aesKey? with
    | none => simp [decryptDatAuto, hv]
    | some k => simp [decryptDatAuto, hv, hk k hak]
  · intro hv k hak hklen
    subst hak
    simp [decryptDatAuto, hv, hklen]
  · intro hv
    have hkey : asciiKey16 defaultV1AesKey =
        Except.ok [99, 102, 99, 100, 50, 48, 56, 52, 57, 53, 100, 53, 54, 53, 101, 102] := by
      decide
    simp [decryptDatAuto, hv, hkey]

/-- Witness for C8: a V2-signature container with no configured key is a
configuration error. -/
theorem decryptDatAuto_spec_witness :
    decryptDatAuto (fun _ ct => ct) [0x07, 0x08, 0x56, 0x32, 0x08, 0x07] 0 none =
      Except.error DatError.configKeyMissing :=
  (decryptDatAuto_spec (fun _ ct => ct) [0x07, 0x08, 0x56, 0x32, 0x08, 0x07] 0 none).1
    (by decide) (fun k hk => by cases hk)

/-- Length of `jsSubarray l 0 e` for an in-range nonnegative end index. -/
theorem jsSubarray_zero_length (l : List Nat) (e : Int) (h0 : 0 ≤ e)
    (hle : e ≤ (l.length : Int)) : ((jsSubarray l 0 e).length : Int) = e := by
  unfold jsSubarray
  simp only
  rw [if_neg (by omega), if_neg (by omega)]
  have hmin0 : min (0 : Int) (l.length : Int) = 0 := by omega
  have hmine : min e (l.length : Int) = e := by omega
  rw [hmin0, hmine]
  simp only [Int.sub_zero, Int.toNat_zero, List.drop_zero]
  rw [List.length_take]
  omega

/-- C10 (amended): for a container whose signed `aesSize` header field is
nonnegative and whose aligned AES size fits the body, the AES region has
length `aesSize + (16 - aesSize % 16)` — a full extra 16-byte block when
`aesSize` is a multiple of 16; an aligned size exceeding the body is the
`aesOverflow` format error; and a negative or oversized `xorSize` prevents
any successful output.  (For a negative `aesSize` — the field is a signed
32-bit read — the subarray end index counts from the end of the body and the
length formula fails; see the counterexample.) -/
theorem decryptDatV4_sizes (aesDec : List Nat → List Nat → List Nat)
    (bytes : List Nat) (xorKey : Nat) (aesKey : List Nat) (a x : Int)
    (hlen : 15 ≤ bytes.length)
    (ha : v4AesSize bytes = .ok a) (hx : v4XorSize bytes = .ok x) :
    (0 ≤ a → alignAesSize a ≤ ((v4Body bytes).length : Int) →
      ((v4AesData bytes a).length : Int) = a + (16 - a % 16))
    ∧ (alignAesSize a > ((v4Body bytes).length : Int) →
        decryptDatV4 aesDec bytes xorKey aesKey = .error .aesOverflow)
    ∧ (alignAesSize a ≤ ((v4Body bytes).length : Int) →
        (x < 0 ∨ x > ((jsSubarrayFrom (v4Body bytes) (alignAesSize a)).length : Int)) →
        ∀ out, decryptDatV4 aesDec bytes xorKey aesKey ≠ .ok out) := by
  have h15 : ¬ bytes.length < 15 := by omega
  refine ⟨?_, ?_, ?_⟩
  · intro ha0 hfit
    have hrem : jsRem a 16 = a % 16 := if_pos ha0
    have hmod1 : 0 ≤ a % 16 := Int.emod_nonneg a (by norm_num)
    have hmod2 : a % 16 < 16 := Int.emod_lt_of_pos a (by norm_num)
    have halign : alignAesSize a = a + (16 - a % 16) := by
      unfold alignAesSize
      rw [hrem]
      omega
    have h0 : 0 ≤ alignAesSize a := by omega
    rw [v4AesData, jsSubarray_zero_length _ _ h0 hfit, halign]
  · intro hover
    simp [decryptDatV4, h15, ha, hx, hover]
  · intro hfit hbad out hok
    have hnover := not_lt.mpr hfit
    simp only [decryptDatV4, if_neg h15, ha, hx, if_neg hnover] at hok
    split at hok
    · exact absurd hok (by simp)
    · rw [if_pos hbad] at hok
      exact absurd hok (by simp)

/-- Witness for C10: a concrete container with `aesSize = 32`, `xorSize = -1`
(all four `xorSize` bytes `0xff`): the AES region is 48 bytes and the
negative `xorSize` prevents any output. -/
theorem decryptDatV4_sizes_witness :
    ((v4AesData ([0, 0, 0, 0, 0, 0, 32, 0, 0, 0, 255, 255, 255, 255, 0] ++
        List.replicate 64 0) 32).length : Int) = 32 + (16 - (32 : Int) % 16) ∧
    ∀ out, decryptDatV4 (fun _ ct => ct)
        ([0, 0, 0, 0, 0, 0, 32, 0, 0, 0, 255, 255, 255, 255, 0] ++
          List.replicate 64 0) 0 (List.replicate 16 0) ≠ .ok out := by
  constructor
  · exact (decryptDatV4_sizes (fun _ ct => ct) _ 0 (List.replicate 16 0) 32 (-1)
      (by simp) (by decide) (by decide)).1 (by decide) (by decide)
  · exact (decryptDatV4_sizes (fun _ ct => ct) _ 0 (List.replicate 16 0) 32 (-1)
      (by simp) (by decide) (by decide)).2.2 (by decide) (Or.inl (by decide))

/-- Counterexample for C10 as stated: with a negative `aesSize` (here `-20`,
bytes `ec ff ff ff`) over a 32-byte body, the code's AES region has length 16,
not `aesSize + (16 - (aesSize mod 16))` (which is `-16` with the code's
alignment, or `0` with the JavaScript remainder). -/
theorem decryptDatV4_aesRegion_counterexample :
    v4AesSize ([0, 0, 0, 0, 0, 0, 0xec, 0xff, 0xff, 0xff, 0, 0, 0, 0, 0] ++
        List.replicate 32 0) = .ok (-20) ∧
    ((v4AesData ([0, 0, 0, 0, 0, 0, 0xec, 0xff, 0xff, 0xff, 0, 0, 0, 0, 0] ++
        List.replicate 32 0) (-20)).length : Int) = 16 ∧
    alignAesSize (-20) ≠ 16 ∧
    (-20 : Int) + (16 - jsRem (-20) 16) ≠ 16 := by
  refine ⟨by decide, by decide, by decide, by decide⟩

/-- C2: a batch of at least two records is reversed exactly when the first
record's ordering key is strictly greater than the last record's, and is
returned unchanged otherwise. -/
theorem normalizeMessageOrder_spec (messages : List Message)
    (h2 : 2 ≤ messages.length) :
    (messageOrderKey (messages.headD default) >
        messageOrderKey (messages.getLastD default) →
      normalizeMessageOrder messages = messages.reverse)
    ∧ (¬ messageOrderKey (messages.headD default) >
          messageOrderKey (messages.getLastD default) →
      normalizeMessageOrder messages = messages) := by
  have hn : ¬ messages.length < 2 := by omega
  constructor
  · intro hgt
    simp only [normalizeMessageOrder]
    rw [if_neg hn, if_pos hgt]
  · intro hle
    simp only [normalizeMessageOrder]
    rw [if_neg hn, if_neg hle]

/-- Witness for C2: input ordering keys `[50, 40, 30]` yield output keys
`[30, 40, 50]`. -/
theorem normalizeMessageOrder_spec_witness :
    normalizeMessageOrder [⟨1, 0, 50⟩, ⟨2, 0, 40⟩, ⟨3, 0, 30⟩] =
        [⟨3, 0, 30⟩, ⟨2, 0, 40⟩, ⟨1, 0, 50⟩] ∧
      (normalizeMessageOrder [⟨1, 0, 50⟩, ⟨2, 0, 40⟩, ⟨3, 0, 30⟩]).map
        messageOrderKey = [30, 40, 50] := by
  have h := (normalizeMessageOrder_spec [⟨1, 0, 50⟩, ⟨2, 0, 40⟩, ⟨3, 0, 30⟩]
    (by decide)).1 (by decide)
  refine ⟨by simpa using h, ?_⟩
  rw [h]
  decide

/-- C6: with `allowThumbnail = false`, when every hardlink lookup yields only
a thumbnail-suffixed file the resolution returns not-found, and in
high-definition-only mode no filesystem fallback search is ever performed. -/
theorem resolveDatPath_hdOnly (env : ResolveEnv)
    (imageMd5 imageDatName : Option String) (skipResolvedCache : Bool) :
    ((∀ h p, env.hardlink h = some p → env.isThumb p = true) →
      resolveDatPath env imageMd5 imageDatName false skipResolvedCache =
        ⟨none, false⟩)
    ∧ (resolveDatPath env imageMd5 imageDatName false skipResolvedCache).searched
        = false := by
  constructor
  · intro hthumb
    unfold resolveDatPath
    cases hm : imageMd5 with
    | some md5 =>
      cases hh : env.hardlink md5 with
      | some p => simp [hh, hthumb md5 p hh]
      | none =>
        cases hd : imageDatName with
        | some dn =>
          by_cases h1 : looksLikeMd5 dn = true
          · by_cases h2 : dn = md5
            · simp [hh, h1, h2]
            · cases hh2 : env.hardlink dn with
              | some p => simp [hh, h1, h2, hh2, hthumb dn p hh2]
              | none => simp [hh, h1, h2, hh2]
          · simp [hh, h1]
        | none => simp [hh]
    | none =>
      cases hd : imageDatName with
      | some dn =>
        by_cases h1 : looksLikeMd5 dn = true
        · cases hh : env.hardlink dn with
          | some p => simp [hh, h1, hthumb dn p hh]
          | none => simp [hh, h1]
        · simp [h1]
      | none => simp
  · unfold resolveDatPath
    cases hm : imageMd5 with
    | some md5 =>
      cases hh : env.hardlink md5 with
      | some p => cases hp : env.isThumb p <;> simp [hh, hp]
      | none =>
        cases hd : imageDatName with
        | some dn =>
          by_cases h1 : looksLikeMd5 dn = true
          · by_cases h2 : dn = md5
            · simp [hh, h1, h2]
            · cases hh2 : env.hardlink dn with
              | some p => cases hp : env.isThumb p <;> simp [hh, h1, h2, hh2, hp]
              | none => simp [hh, h1, h2, hh2]
          · simp [hh, h1]
        | none => simp [hh]
    | none =>
      cases hd : imageDatName with
      | some dn =>
        by_cases h1 : looksLikeMd5 dn = true
        · cases hh : env.hardlink dn with
          | some p => cases hp : env.isThumb p <;> simp [hh, h1, hp]
          | none => simp [hh, h1]
        · simp [h1]
      | none => simp

/-- Witness for C6: an indirection store holding only a thumbnail file makes
an HD-only resolution return not-found without searching. -/
theorem resolveDatPath_hdOnly_witness :
    resolveDatPath
      ⟨fun _ => some "abc_t.dat", fun p => p = "abc_t.dat",
        fun _ => none, fun _ => false, fun _ _ => none⟩
      (some "00ff00ff00ff00ff") none false false = ⟨none, false⟩ :=
  (resolveDatPath_hdOnly _ (some "00ff00ff00ff00ff") none false).1
    (fun h p hp => by
      injection hp with h1
      rw [← h1]
      decide)

/-- C7: with a fully discovered shard schema, the strategies run in the fixed
order identity+time, exact time, ±5-second window: a decodable strategy-1 row
is returned with only tier 1 executed; tier 2 runs only after tier 1 yields
no decodable row; tier 3 runs only after tiers 1 and 2 both yield nothing;
and across shards the first non-empty decoded payload wins. -/
theorem voiceLookup_order (decode : List Nat → Option (List Nat))
    (sh : VoiceShard) (h1 : sh.schema.hasChatNameId = true)
    (h2 : sh.schema.hasTimeColumn = true) (h3 : sh.schema.hasName2Id = true) :
    (∀ d, (if !sh.name2IdRows.isEmpty then sh.q1.bind decode else none) = some d →
        voiceLookupShard decode sh = (some d, [1]))
    ∧ ((if !sh.name2IdRows.isEmpty then sh.q1.bind decode else none) = none →
        ∀ d, sh.q2.bind decode = some d →
          voiceLookupShard decode sh = (some d, [1, 2]))
    ∧ ((if !sh.name2IdRows.isEmpty then sh.q1.bind decode else none) = none →
        sh.q2.bind decode = none →
        voiceLookupShard decode sh = (sh.q3.bind decode, [1, 2, 3]))
    ∧ (∀ rest, getVoiceDataFromMediaDb decode (sh :: rest) =
        ((voiceLookupShard decode sh).1 <|> getVoiceDataFromMediaDb decode rest)) := by
  refine ⟨?_, ?_, ?_, ?_⟩
  · intro d hd
    have hd' : (if sh.name2IdRows = [] then none else sh.q1.bind decode) = some d := by
      simpa using hd
    simp [voiceLookupShard, h1, h2, h3, hd']
  · intro h0 d hd
    have h0' : (if sh.name2IdRows = [] then none else sh.q1.bind decode) = none := by
      simpa using h0
    simp [voiceLookupShard, h1, h2, h3, h0', hd]
  · intro h0 h02
    have h0' : (if sh.name2IdRows = [] then none else sh.q1.bind decode) = none := by
      simpa using h0
    simp [voiceLookupShard, h1, h2, h3, h0', h02]
  · intro rest
    cases hs : (voiceLookupShard decode sh).1 with
    | some d => simp [getVoiceDataFromMediaDb, hs]
    | none => simp [getVoiceDataFromMediaDb, hs]

/-- Witness for C7: a shard whose identity-tier query has no row is answered
by the exact-time tier. -/
theorem voiceLookup_order_witness :
    voiceLookupShard some ⟨⟨true, true, true⟩, [7], none, some [1, 2], some [9]⟩ =
      (some [1, 2], [1, 2]) :=
  (voiceLookup_order some ⟨⟨true, true, true⟩, [7], none, some [1, 2], some [9]⟩
    rfl rfl rfl).2.1 (by decide) [1, 2] (by decide)

/-- Requests for a key whose task is in flight only attach to it. -/
theorem dedupRun_attach (k : String) (t m : Nat) :
    ∀ s : DedupState, s.pending k = some t →
      dedupRun s (List.replicate m (.request k)) =
        { s with served := s.served ++ List.replicate m (k, t) } := by
  induction m with
  | zero =>
    intro s hs
    simp [dedupRun]
  | succ m ih =>
    intro s hs
    rw [List.replicate_succ]
    have hstep : dedupStep s (.request k) = { s with served := s.served ++ [(k, t)] } := by
      simp [dedupStep, hs]
    simp only [dedupRun, List.foldl_cons] at *
    rw [hstep, ih _ (by simpa using hs)]
    have hl : (s.served ++ [(k, t)]) ++ List.replicate m (k, t) =
        s.served ++ List.replicate (m + 1) (k, t) := by
      rw [List.append_assoc, List.singleton_append, ← List.replicate_succ]
    simp only [hl]

/-- C9: N ≥ 1 concurrent requests for the same key (all arriving before the
shared task settles) start the underlying work exactly once, every caller is
attached to that same task, and the in-flight entry is removed when the task
completes. -/
theorem dedup_once (k : String) (N : Nat) (hN : 1 ≤ N) :
    ((dedupRun dedupInit
        (List.replicate N (DedupEvent.request k) ++ [DedupEvent.complete k])).starts = 1)
    ∧ ((dedupRun dedupInit
        (List.replicate N (DedupEvent.request k) ++ [DedupEvent.complete k])).served =
          List.replicate N (k, 0))
    ∧ ((dedupRun dedupInit
        (List.replicate N (DedupEvent.request k) ++ [DedupEvent.complete k])).pending k =
          none) := by
  obtain ⟨m, rfl⟩ : ∃ m, N = m + 1 := ⟨N - 1, by omega⟩
  have hfirst : dedupStep dedupInit (.request k) =
      { pending := fun k' => if k' = k then some 0 else none, nextId := 1,
        starts := 1, served := [(k, 0)] } := by
    simp [dedupStep, dedupInit]
  have hrun : dedupRun dedupInit (List.replicate (m + 1) (DedupEvent.request k)) =
      { pending := fun k' => if k' = k then some 0 else none, nextId := 1,
        starts := 1, served := [(k, 0)] ++ List.replicate m (k, 0) } := by
    rw [List.replicate_succ]
    simp only [dedupRun, List.foldl_cons]
    rw [hfirst]
    have := dedupRun_attach k 0 m
      { pending := fun k' => if k' = k then some 0 else none, nextId := 1,
        starts := 1, served := [(k, 0)] } (by simp)
    simpa [dedupRun] using this
  have hall : dedupRun dedupInit
      (List.replicate (m + 1) (DedupEvent.request k) ++ [DedupEvent.complete k]) =
      dedupStep (dedupRun dedupInit (List.replicate (m + 1) (DedupEvent.request k)))
        (DedupEvent.complete k) := by
    simp [dedupRun, List.foldl_append]
  rw [hall, hrun]
  refine ⟨rfl, ?_, ?_⟩
  · simp [dedupStep, List.replicate_succ]
  · simp [dedupStep]

/-- Witness for C9: three concurrent requests for one key. -/
theorem dedup_once_witness :
    ((dedupRun dedupInit
        (List.replicate 3 (DedupEvent.request "img") ++ [DedupEvent.complete "img"])).starts = 1)
    ∧ ((dedupRun dedupInit
        (List.replicate 3 (DedupEvent.request "img") ++ [DedupEvent.complete "img"])).served =
          List.replicate 3 ("img", 0))
    ∧ ((dedupRun dedupInit
        (List.replicate 3 (DedupEvent.request "img") ++ [DedupEvent.complete "img"])).pending "img" =
          none) :=
  dedup_once "img" 3 (by decide)

/-- Decompose a batch-length sum at its first batch. -/
theorem batchLenSum_succ_front (stream : Nat → MsgBatch) (pos k : Nat) :
    batchLenSum stream pos (k + 1) =
      (stream pos).rows.length + batchLenSum stream (pos + 1) k := by
  induction k with
  | zero => simp [batchLenSum]
  | succ k ih =>
    have hidx : pos + (k + 1) = pos + 1 + k := by omega
    show batchLenSum stream pos (k + 1) + (stream (pos + (k + 1))).rows.length = _
    rw [ih, hidx, Nat.add_assoc]
    rfl

/-- Characterization of the skip loop on a stream that keeps yielding
non-empty batches with `hasMore`: it discards whole batches until the
discarded count first reaches the offset. -/
theorem skipLoop_good (stream : Nat → MsgBatch)
    (hgood : ∀ n, (stream n).rows.length ≠ 0 ∧ (stream n).hasMore = true)
    (offset : Nat) :
    ∀ fuel pos skipped, offset - skipped ≤ fuel →
      ∃ k, skipLoop stream offset pos skipped =
            SkipOut.done (pos + k) (skipped + batchLenSum stream pos k)
        ∧ offset ≤ skipped + batchLenSum stream pos k
        ∧ ∀ j < k, skipped + batchLenSum stream pos j < offset := by
  intro fuel
  induction fuel with
  | zero =>
    intro pos skipped hf
    have hle : ¬ skipped < offset := by omega
    unfold skipLoop
    rw [dif_neg hle]
    exact ⟨0, by simp [batchLenSum], by simp [batchLenSum]; omega,
      fun j hj => absurd hj (by omega)⟩
  | succ fuel ih =>
    intro pos skipped hf
    by_cases hlt : skipped < offset
    · have hrows := (hgood pos).1
      have hmore := (hgood pos).2
      unfold skipLoop
      rw [dif_pos hlt, dif_neg hrows, if_pos hmore]
      obtain ⟨k, heq, hge, hmin⟩ :=
        ih (pos + 1) (skipped + (stream pos).rows.length) (by omega)
      refine ⟨k + 1, ?_, ?_, ?_⟩
      · have h1 : pos + 1 + k = pos + (k + 1) := by omega
        have h2 : skipped + (stream pos).rows.length + batchLenSum stream (pos + 1) k
            = skipped + batchLenSum stream pos (k + 1) := by
          rw [batchLenSum_succ_front]
          omega
        rw [heq, h1, h2]
      · rw [batchLenSum_succ_front]
        omega
      · intro j hj
        cases j with
        | zero => simpa [batchLenSum] using hlt
        | succ j' =>
          have hm := hmin j' (by omega)
          rw [batchLenSum_succ_front]
          omega
    · unfold skipLoop
      rw [dif_neg hlt]
      exact ⟨0, by simp [batchLenSum], by simp [batchLenSum]; omega,
        fun j hj => absurd hj (by omega)⟩

/-- The rebuild condition, spelled out. -/
theorem needNewCursor_eq_true_iff (state? : Option CursorState)
    (offset batchSize : Nat) (startTime endTime : Int) (ascending : Bool) :
    needNewCursor state? offset batchSize startTime endTime ascending = true ↔
      (state? = none ∨ offset = 0 ∨ ∃ s, state? = some s ∧
        (s.batchSize ≠ batchSize ∨ s.startTime ≠ startTime ∨
          s.endTime ≠ endTime ∨ s.ascending ≠ ascending)) := by
  cases state? with
  | none => simp [needNewCursor]
  | some s =>
    simp [needNewCursor]
    tauto

/-- The model of `getMessages` opens a fresh cursor exactly when the rebuild condition
holds. -/
theorem getMessages_openedNew (openCursor : Nat → Bool → Int → Int → Nat → MsgBatch)
    (state? : Option CursorState) (offset limit : Nat)
    (startTime endTime : Int) (ascending : Bool) :
    (getMessagesModel openCursor state? offset limit startTime endTime ascending).openedNew =
      needNewCursor state? offset
        (max 1 (if limit = 0 then messageBatchDefault else limit))
        startTime endTime ascending := by
  simp only [getMessagesModel]
  by_cases hn : needNewCursor state? offset
      (max 1 (if limit = 0 then messageBatchDefault else limit))
      startTime endTime ascending = true
  · rw [if_pos hn, hn]
    by_cases ho : 0 < offset
    · rw [if_pos ho]
      split <;> simp [fetchMessagePage]
    · rw [if_neg ho]
      simp [fetchMessagePage]
  · rw [if_neg hn]
    have hb := Bool.not_eq_true _ |>.mp hn
    rw [hb]
    cases state? with
    | some s => simp [fetchMessagePage]
    | none => simp

/-- C1 (amended): (a) a fresh underlying cursor is opened iff no cursor state
exists, or `offset = 0`, or any of batch size, start time, end time or
direction differs from the stored parameters; (b) on a fresh cursor with
`offset > 0` (over batches that stay non-empty with `hasMore`), rows are
discarded in whole batches until the discarded count *first reaches or
exceeds* `offset` — exactly `offset` only when a batch boundary lands on it —
and the returned page is the next batch after the discarded ones; (c) when an
existing cursor is reused and `offset` differs from the stored fetched count,
the call still continues with the existing cursor at its current position. -/
theorem getMessages_cursor_spec
    (openCursor : Nat → Bool → Int → Int → Nat → MsgBatch)
    (state? : Option CursorState) (offset limit : Nat)
    (startTime endTime : Int) (ascending : Bool) (batchSize : Nat)
    (hbs : batchSize = max 1 (if limit = 0 then messageBatchDefault else limit))
    (stream : Nat → MsgBatch)
    (hstream : stream = openCursor batchSize ascending
      (if startTime > 10000000000 then startTime / 1000 else startTime)
      (if endTime > 10000000000 then endTime / 1000 else endTime)) :
    ((getMessagesModel openCursor state? offset limit startTime endTime ascending).openedNew
        = true ↔
      (state? = none ∨ offset = 0 ∨ ∃ s, state? = some s ∧
        (s.batchSize ≠ batchSize ∨ s.startTime ≠ startTime ∨
          s.endTime ≠ endTime ∨ s.ascending ≠ ascending)))
    ∧ (needNewCursor state? offset batchSize startTime endTime ascending = true →
        0 < offset →
        (∀ n, (stream n).rows.length ≠ 0 ∧ (stream n).hasMore = true) →
        ∃ k, (getMessagesModel openCursor state? offset limit startTime endTime
                ascending).discarded = batchLenSum stream 0 k
          ∧ offset ≤ batchLenSum stream 0 k
          ∧ (∀ j < k, batchLenSum stream 0 j < offset)
          ∧ (getMessagesModel openCursor state? offset limit startTime endTime
              ascending).messages = normalizeMessageOrder (stream k).rows)
    ∧ (∀ s, state? = some s →
        needNewCursor state? offset batchSize startTime endTime ascending = false →
        offset ≠ s.fetched →
        (getMessagesModel openCursor state? offset limit startTime endTime
            ascending).openedNew = false
        ∧ (getMessagesModel openCursor state? offset limit startTime endTime
            ascending).messages = normalizeMessageOrder (s.stream s.pos).rows
        ∧ (getMessagesModel openCursor state? offset limit startTime endTime
            ascending).state = some ⟨s.stream, s.pos + 1,
              s.fetched + (s.stream s.pos).rows.length, s.batchSize, s.startTime,
              s.endTime, s.ascending⟩) := by
  subst hbs
  subst hstream
  refine ⟨?_, ?_, ?_⟩
  · rw [getMessages_openedNew]
    exact needNewCursor_eq_true_iff _ _ _ _ _ _
  · intro hn ho hgood
    simp only [getMessagesModel]
    rw [if_pos hn, if_pos ho]
    obtain ⟨k, heq, hge, hmin⟩ := skipLoop_good _ hgood offset offset 0 0 (by omega)
    rw [heq]
    refine ⟨k, ?_, by simpa using hge, fun j hj => by simpa using hmin j hj, ?_⟩
    · simp [fetchMessagePage]
    · simp [fetchMessagePage]
  · intro s hs hn' hneq
    subst hs
    simp only [getMessagesModel]
    rw [if_neg (by simp [hn'])]
    exact ⟨rfl, rfl, rfl⟩

/-- Witness for C1: a fresh cursor over single-row batches with `offset = 2`
discards whole batches until reaching the offset. -/
theorem getMessages_cursor_spec_witness :
    ∃ k, (getMessagesModel (fun _ _ _ _ _ => ⟨[⟨1, 1, 1⟩], true⟩)
            none 2 1 0 0 false).discarded
          = batchLenSum (fun _ => ⟨[⟨1, 1, 1⟩], true⟩) 0 k
      ∧ 2 ≤ batchLenSum (fun _ => (⟨[⟨1, 1, 1⟩], true⟩ : MsgBatch)) 0 k
      ∧ (∀ j < k, batchLenSum (fun _ => (⟨[⟨1, 1, 1⟩], true⟩ : MsgBatch)) 0 j < 2)
      ∧ (getMessagesModel (fun _ _ _ _ _ => ⟨[⟨1, 1, 1⟩], true⟩)
            none 2 1 0 0 false).messages
          = normalizeMessageOrder ((fun _ => (⟨[⟨1, 1, 1⟩], true⟩ : MsgBatch)) k).rows :=
  (getMessages_cursor_spec (fun _ _ _ _ _ => ⟨[⟨1, 1, 1⟩], true⟩) none 2 1 0 0 false 1
    (by decide) (fun _ => ⟨[⟨1, 1, 1⟩], true⟩) rfl).2.1 (by decide) (by decide)
    (fun n => ⟨by decide, rfl⟩)

/-- Counterexample for C1 as stated: with `offset = 2` on a fresh cursor whose
batches hold 3 rows each, the skip loop discards 3 rows, not exactly
`offset = 2`. -/
theorem getMessages_skip_counterexample :
    (getMessagesModel (fun _ _ _ _ _ => ⟨[⟨1, 1, 1⟩, ⟨2, 2, 2⟩, ⟨3, 3, 3⟩], true⟩)
        none 2 3 0 0 false).openedNew = true ∧
    (getMessagesModel (fun _ _ _ _ _ => ⟨[⟨1, 1, 1⟩, ⟨2, 2, 2⟩, ⟨3, 3, 3⟩], true⟩)
        none 2 3 0 0 false).discarded = 3 := by
  have hskip : skipLoop
      (fun _ => (⟨[⟨1, 1, 1⟩, ⟨2, 2, 2⟩, ⟨3, 3, 3⟩], true⟩ : MsgBatch)) 2 0 0
      = SkipOut.done 1 3 := by
    simp [skipLoop]
  constructor
  · simp [getMessagesModel, needNewCursor, hskip, fetchMessagePage]
  · simp [getMessagesModel, needNewCursor, hskip, fetchMessagePage]

end WeFlow
